import Mathlib

/-!
# Verification of the renumber core

Shallow embedding of the renumber application's core logic, translated from
`src/context/AppContext.tsx` and `src/screens/PracticeScreen.tsx`
(the mnemonic-training app's mapping store, statistics engine, persistence
hydration, history count and practice-session state machine), together with
theorems settling the specification claims about it.

Modelling conventions:
* JavaScript `Record` objects keyed by strings are embedded as functions
  `String → Option NumberMapping`; spreading with one key replaced becomes a
  functional update.  `Record<number, string>` objects (per-slot selections)
  are embedded as association lists sorted by key, matching JavaScript's
  ascending enumeration order of integer-like keys.
* JavaScript numbers holding counters, indices and timestamps are embedded as
  `Nat` / `Int`; the floating-point divisions inside `Math.round(x / y * 100)`
  are embedded as exact rational arithmetic (`ℚ`), with `Math.round` as
  `⌊x + 1/2⌋` (round half toward +∞), exact for the magnitudes at issue.
* `Date.now()` is passed in as an explicit `now : Nat` parameter wherever the
  source reads the clock.
-/

set_option maxRecDepth 40000

namespace Renumber

/-! ## JavaScript primitives used by the source -/

/-- The decimal digit character for `n < 10`, as produced by JavaScript
number-to-string conversion. -/
def digitChar (n : Nat) : Char := Char.ofNat (48 + n)

/-- Decimal digits of `n`, most significant first; `fuel` bounds the recursion
(`n < fuel` suffices). -/
def natToDigits : Nat → Nat → List Char
  | 0, _ => []
  | fuel + 1, n =>
    if n < 10 then [digitChar n]
    else natToDigits fuel (n / 10) ++ [digitChar (n % 10)]

/-- Models JavaScript `String(n)` / `n.toString()` for a nonnegative integer. -/
def natToString (n : Nat) : String := String.mk (natToDigits (n + 1) n)

/-- Models JavaScript `String.prototype.padStart(len, c)`. -/
def padStart (s : String) (len : Nat) (c : Char) : String :=
  String.mk (List.replicate (len - s.length) c ++ s.data)

/-- Models JavaScript single-character indexing `s[i]`, which yields a
one-character string (the empty string stands in for `undefined` out of
range; all uses in the source are in range). -/
def charAt (s : String) (i : Nat) : String :=
  match s.data.drop i with
  | [] => ""
  | c :: _ => String.mk [c]

/-- Models JavaScript `Math.round` on a nonnegative rational: round half
toward positive infinity. -/
def jsRound (q : ℚ) : ℤ := ⌊q + 1 / 2⌋

/-- Models JavaScript `String.prototype.trim`: strip leading and trailing
whitespace. -/
def jsTrim (s : String) : String :=
  String.mk ((s.data.dropWhile Char.isWhitespace).reverse.dropWhile Char.isWhitespace).reverse

/-! ## Data model (`AppContext.tsx`) -/

/-- `Tag` from `AppContext.tsx`. -/
structure Tag where
  id : String
  label : String
  usageCount : Nat
  successCount : Nat
deriving DecidableEq, Repr

/-- `NumberMapping` from `AppContext.tsx`. -/
structure NumberMapping where
  id : String
  number : String
  tags : List Tag
deriving DecidableEq, Repr

/-- `Difficulty` from `AppContext.tsx`. -/
inductive Difficulty where
  | Easy
  | Moderate
  | Hard
  | Expert
deriving DecidableEq, Repr

/-- `TestResult` from `AppContext.tsx`; `successRate` is the value
`Math.round((successCount / totalSlots) * 100)` stored in the record. -/
structure TestResult where
  id : String
  date : String
  difficulty : Difficulty
  successRate : ℤ
deriving DecidableEq, Repr

/-- The `mappings` dictionary `Record<string, NumberMapping>`, embedded as a
lookup function. -/
abbrev Mappings := String → Option NumberMapping

/-- `AppState` from `AppContext.tsx`. -/
structure AppState where
  mappings : Mappings
  tests : List TestResult

/-- `INITIAL_STATE` from `AppContext.tsx`: empty mappings dictionary, no
tests. -/
def INITIAL_STATE : AppState := { mappings := fun _ => none, tests := [] }

/-! ## Seeding (`generateNumbers` / `hydrateMappings`) -/

/-- `generateNumbers` from `AppContext.tsx`: all 1-, 2- and 3-digit
zero-padded decimal strings, in generation order. -/
def generateNumbers : List String :=
  ([1, 2, 3] : List Nat).flatMap fun len =>
    (List.range (10 ^ len)).map fun i => padStart (natToString i) len '0'

/-- `hydrateMappings` from `AppContext.tsx`: insert an empty-tagged mapping
for every generated number. -/
def hydrateMappings : Mappings :=
  generateNumbers.foldl
    (fun acc v => fun k => if k = v then some { id := v, number := v, tags := [] } else acc k)
    (fun _ => none)

/-- The freshly generated seed state adopted when no stored state exists:
`{ ...INITIAL_STATE, mappings: hydrateMappings() }`. -/
def seedState : AppState := { INITIAL_STATE with mappings := hydrateMappings }

/-! ## Mapping Store operations -/

/-- `addTag` from `AppContext.tsx`.  `now` models `Date.now()`.  Returns the
updated state paired with the value the callback returns to its caller: the
freshly generated `nextId` is returned unconditionally, even when the number
key is absent and the state update is a no-op. -/
def addTag (prev : AppState) (numberValue label : String) (now : Nat) :
    AppState × String :=
  let nextId := numberValue ++ "-" ++ natToString now
  (match prev.mappings numberValue with
   | none => prev
   | some mapping =>
     { prev with
       mappings := fun k =>
         if k = numberValue then
           some { mapping with
                  tags := mapping.tags ++ [{ id := nextId, label := label,
                                             usageCount := 0, successCount := 0 }] }
         else prev.mappings k },
   nextId)

/-- `updateTag` from `AppContext.tsx`: replace the label of the matching tag;
no-op when the number key is absent. -/
def updateTag (prev : AppState) (numberValue tagId label : String) : AppState :=
  match prev.mappings numberValue with
  | none => prev
  | some mapping =>
    { prev with
      mappings := fun k =>
        if k = numberValue then
          some { mapping with
                 tags := mapping.tags.map fun tag =>
                   if tag.id = tagId then { tag with label := label } else tag }
        else prev.mappings k }

/-- One element of the `usedTags` argument of `recordTest`. -/
structure UsedTag where
  numberValue : String
  tagId : String
  correct : Bool
deriving DecidableEq, Repr

/-- The per-tag update inside the `tags.map` of `recordTest`: bump the
counters when the id matches, otherwise leave the tag alone. -/
def bumpIf (e : UsedTag) (tag : Tag) : Tag :=
  if tag.id = e.tagId then
    { tag with
      usageCount := tag.usageCount + 1,
      successCount := tag.successCount + (if e.correct then 1 else 0) }
  else tag

/-- The body of the `usedTags.forEach` loop in `recordTest`: read the
(partially updated) mappings dictionary, skip silently when the number key is
absent, otherwise bump the counters of every tag with the matching id. -/
def applyEntry (ms : Mappings) (e : UsedTag) : Mappings :=
  match ms e.numberValue with
  | none => ms
  | some mapping =>
    fun k =>
      if k = e.numberValue then
        some { mapping with tags := mapping.tags.map (bumpIf e) }
      else ms k

/-- `recordTest` from `AppContext.tsx`: fold the entries over a copy of the
mappings dictionary and prepend the result record to the history. -/
def recordTest (prev : AppState) (result : TestResult) (usedTags : List UsedTag) :
    AppState :=
  { prev with
    tests := result :: prev.tests,
    mappings := usedTags.foldl applyEntry prev.mappings }

/-! ## Statistics engine (`getTagRates`) -/

/-- The object `{ usageRate, successRate }` returned by `getTagRates`. -/
structure TagRates where
  usageRate : ℤ
  successRate : ℤ
deriving DecidableEq, Repr

/-- `getTagRates` from `AppContext.tsx`. -/
def getTagRates (tag : Tag) (maxUsage : Nat) : TagRates :=
  { usageRate :=
      if maxUsage = 0 then 0
      else jsRound ((tag.usageCount : ℚ) / (maxUsage : ℚ) * 100),
    successRate :=
      if tag.usageCount = 0 then 0
      else jsRound ((tag.successCount : ℚ) / (tag.usageCount : ℚ) * 100) }

/-! ## Persistence hydration (`loadState` / `AppProvider`) -/

/-- The stored row under the `"appState"` key: absent, unreadable because the
SQL query failed, or present with a text value. -/
inductive StoredRow where
  | absent
  | sqlError
  | value (s : String)

/-- Outcome of `JSON.parse` on the stored text, supplied as a parameter
because `JSON.parse` is a host primitive: either a value the source casts to
`AppState`, or a thrown `SyntaxError`. -/
inductive ParseResult (α : Type) where
  | ok (v : α)
  | thrown

/-- Outcome of the `loadState` promise from `AppContext.tsx`.  An absent row
and a SQL error both run `resolve(null)`; a present row runs
`resolve(JSON.parse(stored))`, so when `JSON.parse` throws inside the success
callback no `resolve` ever runs and the promise never settles. -/
inductive LoadOutcome where
  | resolvedNull
  | resolvedState (v : AppState)
  | neverSettles

/-- `loadState` from `AppContext.tsx`, as a function of the stored row and
the behaviour of `JSON.parse` on it. -/
def loadState (row : StoredRow) (parse : String → ParseResult AppState) :
    LoadOutcome :=
  match row with
  | .absent => .resolvedNull
  | .sqlError => .resolvedNull
  | .value s =>
    match parse s with
    | .ok v => .resolvedState v
    | .thrown => .neverSettles

/-- The provider state after startup, from the hydration effect in
`AppProvider`: a resolved object is adopted (`if (stored) setState(stored)`),
a resolved `null` triggers the seed, and a never-settling load leaves the
provider on `INITIAL_STATE` forever (the `.then` callback never runs). -/
def providerStateAfterLoad (row : StoredRow)
    (parse : String → ParseResult AppState) : AppState :=
  match loadState row parse with
  | .resolvedState v => v
  | .resolvedNull => { INITIAL_STATE with mappings := hydrateMappings }
  | .neverSettles => INITIAL_STATE

/-! ## History count (`testsLast24h` in `PracticeScreen.tsx`) -/

/-- `testsLast24h` from `PracticeScreen.tsx`, over the `getTime()` values (in
milliseconds) of the stored test dates: keeps every test whose timestamp is
at least `now` minus 24 hours, with no upper bound. -/
def testsLast24h (tests : List ℤ) (now : ℤ) : Nat :=
  (tests.filter fun d => decide (now - 24 * 60 * 60 * 1000 ≤ d)).length

/-- Modelled from the spec: `recentCount(tests, windowMs, now)` counts tests
whose timestamp falls within the closed interval `[now - windowMs, now]`.
Stated here only to compare the source's `testsLast24h` against it. -/
def recentCount (tests : List ℤ) (windowMs now : ℤ) : Nat :=
  (tests.filter fun d => decide (now - windowMs ≤ d ∧ d ≤ now)).length

/-! ## Practice session state machine (`PracticeScreen.tsx`) -/

/-- The `phase` component state of `PracticeScreen`. -/
inductive Phase where
  | idle
  | show
  | wait
  | input
  | review
deriving DecidableEq, Repr

/-- One row of `difficultyConfig` from `PracticeScreen.tsx`; `digits` is
split into its two endpoints. -/
structure DifficultyConfig where
  showTime : Nat
  waitTime : Nat
  minDigits : Nat
  maxDigits : Nat
deriving DecidableEq, Repr

/-- `difficultyConfig` from `PracticeScreen.tsx`. -/
def difficultyConfig : Difficulty → DifficultyConfig
  | .Easy => ⟨4, 2, 3, 5⟩
  | .Moderate => ⟨3, 2, 5, 7⟩
  | .Hard => ⟨2, 1, 7, 9⟩
  | .Expert => ⟨1, 1, 9, 12⟩

/-- `randomNumber` from `PracticeScreen.tsx`, with the random draw
`v = Math.floor(Math.random() * 10 ** digits)` passed in explicitly. -/
def randomNumber (digits v : Nat) : String := padStart (natToString v) digits '0'

/-- Setting key `k` of a `Record<number, string>` object (spread with one key
replaced).  The association list is kept sorted by key, matching JavaScript's
ascending enumeration order of integer-like object keys. -/
def recordInsert : List (Nat × String) → Nat → String → List (Nat × String)
  | [], k, v => [(k, v)]
  | p :: rest, k, v =>
    if k < p.1 then (k, v) :: p :: rest
    else if k = p.1 then (k, v) :: rest
    else p :: recordInsert rest k v

/-- Reading key `k` of a `Record<number, string>` object. -/
def lookupRecord : List (Nat × String) → Nat → Option String
  | [], _ => none
  | p :: rest, k => if k = p.1 then some p.2 else lookupRecord rest k

/-- The component state of `PracticeScreen` that the session logic touches. -/
structure Session where
  difficulty : Difficulty
  phase : Phase
  currentNumber : String
  inputs : List String
  selectedTags : List (Nat × String)
  editInputs : List (Nat × String)
deriving DecidableEq, Repr

/-- The component state at mount: `useState` initial values. -/
def initialSession : Session :=
  { difficulty := .Easy, phase := .idle, currentNumber := "",
    inputs := [], selectedTags := [], editInputs := [] }

/-- `isComplete` from `PracticeScreen.tsx`:
`phase === 'review' && Object.keys(selectedTags).length === currentNumber.length`.
The finish control is rendered exactly when this is `true`. -/
def isComplete (s : Session) : Bool :=
  decide (s.phase = Phase.review) && decide (s.selectedTags.length = s.currentNumber.length)

/-- Modelled from the spec's words, for comparison with `isComplete`: every
slot has a tag selection recorded. -/
def allSlotsSelected (s : Session) : Bool :=
  (List.range s.inputs.length).all fun i => (lookupRecord s.selectedTags i).isSome

/-- The regular-expression guard `/^[0-9]?$/.test(value)` of
`handleInputChange`. -/
def isDigitStr (v : String) : Bool :=
  v.data = [] || (decide (v.data.length = 1) && v.data.all fun c => decide ('0' ≤ c) && decide (c ≤ '9'))

/-- The `successCount` computed by `handleFinish`:
`inputs.filter((digit, index) => digit === currentNumber[index]).length`. -/
def successCount (s : Session) : Nat :=
  (s.inputs.enum.filter fun p => decide (p.2 = charAt s.currentNumber p.1)).length

/-- The `TestResult` built by `handleFinish`; `tnow` models `Date.now()` and
`dateStr` models `new Date().toISOString()`. -/
def finishResult (tnow : Nat) (dateStr : String) (s : Session) : TestResult :=
  { id := natToString tnow, date := dateStr, difficulty := s.difficulty,
    successRate := jsRound ((successCount s : ℚ) / (s.currentNumber.length : ℚ) * 100) }

/-- The `usedTags` list built by `handleFinish` from `Object.entries(selectedTags)`
(ascending key order), with correctness recomputed per slot. -/
def buildUsedTags (s : Session) : List UsedTag :=
  s.selectedTags.map fun p =>
    { numberValue := charAt s.currentNumber p.1,
      tagId := p.2,
      correct := decide (s.inputs.getD p.1 "" = charAt s.currentNumber p.1) }

/-- Whether the review screen offers a selectable button for tag `tagId` of
the mapping of `numberValue`: one `Pressable` is rendered per tag of that
mapping. -/
def tagOffered (a : AppState) (numberValue tagId : String) : Bool :=
  match a.mappings numberValue with
  | some m => m.tags.any fun t => t.id == tagId
  | none => false

/-- `mappedDigits` from `PracticeScreen.tsx`: the single digits whose mapping
has a nonempty tag list. -/
def mappedDigits (a : AppState) : List String :=
  ((List.range 10).map natToString).filter fun d =>
    match a.mappings d with
    | some m => decide (m.tags.length ≠ 0)
    | none => false

/-- The "practice unlocked" gate: `mappedDigits.length === 10`. -/
def unlocked (a : AppState) : Bool := decide ((mappedDigits a).length = 10)

/-- The label rendered for sort key `k` in the chosen-string display:
`state.mappings[numberValue]?.tags.find(t => t.id === tagId)?.label || ''`. -/
def labelAt (a : AppState) (s : Session) (k : Nat) : String :=
  match lookupRecord s.selectedTags k with
  | some tagId =>
    match a.mappings (charAt s.currentNumber k) with
    | some m => ((m.tags.find? fun t => t.id == tagId).map Tag.label).getD ""
    | none => ""
  | none => ""

/-- JavaScript string comparison (`a < b` on strings): lexicographic by
code unit. -/
def jsStrLt : List Char → List Char → Bool
  | [], [] => false
  | [], _ :: _ => true
  | _ :: _, [] => false
  | a :: as, b :: bs => if a < b then true else if b < a then false else jsStrLt as bs

/-- Insertion step of `Array.prototype.sort()` with the default comparator,
which compares the keys as strings (lexicographically by code unit).  The
numeric keys are kept as `Nat` and compared through their decimal strings,
which is exactly how `Object.keys` hands them to `sort`. -/
def insertByRepr (x : Nat) : List Nat → List Nat
  | [] => [x]
  | y :: ys =>
    if jsStrLt (natToString x).data (natToString y).data then x :: y :: ys
    else y :: insertByRepr x ys

/-- `Object.keys(selectedTags).sort()`: sort the integer-like keys by their
decimal string representations. -/
def sortByRepr (l : List Nat) : List Nat := l.foldr insertByRepr []

/-- The chosen-mnemonic string display of the review screen:
`Object.keys(selectedTags).sort().map(...).join(' ')`. -/
def chosenString (a : AppState) (s : Session) : String :=
  String.intercalate " " ((sortByRepr (s.selectedTags.map Prod.fst)).map (labelAt a s))

/-- Insertion step of a numeric ascending sort, for the spec-side reading. -/
def insertNat (x : Nat) : List Nat → List Nat
  | [] => [x]
  | y :: ys => if x ≤ y then x :: y :: ys else y :: insertNat x ys

/-- Numeric ascending sort of the slot indices, for the spec-side reading. -/
def sortNat (l : List Nat) : List Nat := l.foldr insertNat []

/-- Modelled from the spec's words, for comparison with `chosenString`: the
same labels joined in ascending slot-index order. -/
def specChosenString (a : AppState) (s : Session) : String :=
  String.intercalate " " ((sortNat (s.selectedTags.map Prod.fst)).map (labelAt a s))

/-- The combined effect of `handleSaveMapping(index, editInputs[index] ?? '')`
once past its empty-label guard: `addTag` on the slot's digit, and — because
the returned id is a nonempty string, hence truthy — auto-selection of the new
tag for that slot (`if (tagId) setSelectedTags(...)`). -/
def saveMappingTarget (a : AppState) (s : Session) (index now : Nat) :
    AppState × Session :=
  let label := jsTrim ((lookupRecord s.editInputs index).getD "")
  let r := addTag a (charAt s.currentNumber index) label now
  (r.1,
   { s with selectedTags :=
       if r.2 ≠ "" then recordInsert s.selectedTags index r.2 else s.selectedTags })

/-- One user-visible or timer-driven transition of `PracticeScreen`, paired
with its effect on the shared application state.  Each constructor carries the
conditions under which the source can fire that handler: a handler attached to
a rendered widget can only fire when that widget is rendered (so e.g.
`selectTag` requires the review phase, a correct slot and an offered tag), and
the two scheduled timers are modelled as the phase steps they perform in an
undisturbed session. -/
inductive Step : AppState × Session → AppState × Session → Prop where
  | setDifficulty (a : AppState) (s : Session) (d : Difficulty)
      (hu : unlocked a = true) :
      Step (a, s) (a, { s with difficulty := d })
  | start (a : AppState) (s : Session) (digits v : Nat)
      (hu : unlocked a = true)
      (hmin : (difficultyConfig s.difficulty).minDigits ≤ digits)
      (hmax : digits ≤ (difficultyConfig s.difficulty).maxDigits)
      (hv : v < 10 ^ digits) :
      Step (a, s)
        (a, { s with phase := .show,
                     currentNumber := randomNumber digits v,
                     inputs := List.replicate digits "",
                     selectedTags := [],
                     editInputs := [] })
  | tickWait (a : AppState) (s : Session) (h : s.phase = Phase.show) :
      Step (a, s) (a, { s with phase := .wait })
  | tickInput (a : AppState) (s : Session) (h : s.phase = Phase.wait) :
      Step (a, s) (a, { s with phase := .input })
  | inputChange (a : AppState) (s : Session) (value : String) (index : Nat)
      (hp : s.phase = Phase.input)
      (hi : index < s.inputs.length)
      (hv : isDigitStr value = true) :
      Step (a, s)
        (a, { s with inputs := s.inputs.set index value,
                     phase := if (s.inputs.set index value).all
                                  (fun d => decide (d.length = 1))
                              then Phase.review else s.phase })
  | selectTag (a : AppState) (s : Session) (index : Nat) (tagId : String)
      (hp : s.phase = Phase.review)
      (hi : index < s.inputs.length)
      (hc : s.inputs.getD index "" = charAt s.currentNumber index)
      (ht : tagOffered a (charAt s.currentNumber index) tagId = true) :
      Step (a, s) (a, { s with selectedTags := recordInsert s.selectedTags index tagId })
  | setEditInput (a : AppState) (s : Session) (index : Nat) (value : String)
      (hp : s.phase = Phase.review)
      (hi : index < s.inputs.length)
      (hc : s.inputs.getD index "" ≠ charAt s.currentNumber index) :
      Step (a, s) (a, { s with editInputs := recordInsert s.editInputs index value })
  | saveMapping (a : AppState) (s : Session) (index : Nat) (now : Nat)
      (hp : s.phase = Phase.review)
      (hi : index < s.inputs.length)
      (hc : s.inputs.getD index "" ≠ charAt s.currentNumber index)
      (hl : jsTrim ((lookupRecord s.editInputs index).getD "") ≠ "") :
      Step (a, s) (saveMappingTarget a s index now)
  | finish (a : AppState) (s : Session) (tnow : Nat) (dateStr : String)
      (h : isComplete s = true) :
      Step (a, s)
        (recordTest a (finishResult tnow dateStr s) (buildUsedTags s),
         { s with phase := .idle })

/-- The session states reachable from mounting `PracticeScreen` over an
application state `a0`. -/
inductive Reach (a0 : AppState) : AppState × Session → Prop where
  | base : Reach a0 (a0, initialSession)
  | step {p q : AppState × Session} : Reach a0 p → Step p q → Reach a0 q

/-! ## Lookup characterization of the seed state -/

lemma hydrate_foldl_lookup (l : List String) (f : Mappings) (k : String) :
    (l.foldl
      (fun acc v => fun q => if q = v then some { id := v, number := v, tags := [] } else acc q)
      f) k
      = if k ∈ l then some { id := k, number := k, tags := ([] : List Tag) } else f k := by
  induction l generalizing f with
  | nil => simp
  | cons v t ih =>
    rw [List.foldl_cons, ih]
    by_cases hk : k = v
    · subst hk
      by_cases hm : k ∈ t <;> simp [hm]
    · by_cases hm : k ∈ t <;> simp [hm, hk]

lemma seed_lookup (v : String) (hv : v ∈ generateNumbers) :
    seedState.mappings v = some { id := v, number := v, tags := [] } := by
  show hydrateMappings v = _
  unfold hydrateMappings
  rw [hydrate_foldl_lookup, if_pos hv]

lemma seed_lookup_not_mem (v : String) (hv : v ∉ generateNumbers) :
    seedState.mappings v = none := by
  show hydrateMappings v = _
  unfold hydrateMappings
  rw [hydrate_foldl_lookup, if_neg hv]

/-! ## Closed-form characterization of `recordTest` -/

/-- Whether entry `e` targets tag `t` of the mapping stored under key `n`. -/
def entryMatches (n : String) (t : Tag) (e : UsedTag) : Bool :=
  decide (e.numberValue = n ∧ e.tagId = t.id)

/-- Whether entry `e` targets tag `t` of mapping `n` and is marked correct. -/
def entryMatchesCorrect (n : String) (t : Tag) (e : UsedTag) : Bool :=
  decide (e.numberValue = n ∧ e.tagId = t.id ∧ e.correct = true)

/-- The cumulative effect on one tag of mapping `n` of processing a whole
`usedTags` list: the usage counter grows by the number of matching entries,
the success counter by the number of matching entries flagged correct. -/
def finalTag (us : List UsedTag) (n : String) (t : Tag) : Tag :=
  { t with
    usageCount := t.usageCount + us.countP (entryMatches n t),
    successCount := t.successCount + us.countP (entryMatchesCorrect n t) }

lemma finalTag_nil (n : String) (t : Tag) : finalTag [] n t = t := by
  cases t
  simp [finalTag]

lemma finalTag_cons_skip (e : UsedTag) (us : List UsedTag) (n : String) (t : Tag)
    (h : ¬(e.numberValue = n ∧ e.tagId = t.id)) :
    finalTag (e :: us) n t = finalTag us n t := by
  have h1 : entryMatches n t e = false := by
    simp only [entryMatches, decide_eq_false_iff_not]
    exact h
  have h2 : entryMatchesCorrect n t e = false := by
    simp only [entryMatchesCorrect, decide_eq_false_iff_not]
    exact fun hc => h ⟨hc.1, hc.2.1⟩
  simp [finalTag, List.countP_cons, h1, h2]

lemma entryMatches_id_congr (n : String) (a b : Tag) (h : a.id = b.id) :
    entryMatches n a = entryMatches n b := by
  funext e
  simp [entryMatches, h]

lemma entryMatchesCorrect_id_congr (n : String) (a b : Tag) (h : a.id = b.id) :
    entryMatchesCorrect n a = entryMatchesCorrect n b := by
  funext e
  simp [entryMatchesCorrect, h]

lemma bumpIf_id (e : UsedTag) (t : Tag) : (bumpIf e t).id = t.id := by
  unfold bumpIf
  split <;> rfl

lemma finalTag_comp (e : UsedTag) (us : List UsedTag) (n : String) (t : Tag)
    (hn : e.numberValue = n) :
    finalTag us n (bumpIf e t) = finalTag (e :: us) n t := by
  have hm := entryMatches_id_congr n (bumpIf e t) t (bumpIf_id e t)
  have hmc := entryMatchesCorrect_id_congr n (bumpIf e t) t (bumpIf_id e t)
  unfold finalTag
  rw [hm, hmc, List.countP_cons, List.countP_cons]
  by_cases ht : t.id = e.tagId
  · have h1 : entryMatches n t e = true := by
      simp [entryMatches, hn, ht]
    have h2 : entryMatchesCorrect n t e = e.correct := by
      cases hc : e.correct <;> simp [entryMatchesCorrect, hn, ht, hc]
    rw [h1, h2]
    unfold bumpIf
    rw [if_pos ht]
    cases t
    cases hc : e.correct <;> simp [Tag.mk.injEq] <;> omega
  · have h1 : entryMatches n t e = false := by
      simp only [entryMatches, decide_eq_false_iff_not]
      rintro ⟨-, h⟩
      exact ht h.symm
    have h2 : entryMatchesCorrect n t e = false := by
      simp only [entryMatchesCorrect, decide_eq_false_iff_not]
      rintro ⟨-, h, -⟩
      exact ht h.symm
    rw [h1, h2]
    unfold bumpIf
    rw [if_neg ht]
    simp

lemma applyEntry_lookup (ms : Mappings) (e : UsedTag) (n : String) :
    applyEntry ms e n =
      if n = e.numberValue then
        (ms n).map fun m => { m with tags := m.tags.map (bumpIf e) }
      else ms n := by
  by_cases hn : n = e.numberValue
  · subst hn
    rw [if_pos rfl]
    unfold applyEntry
    cases hms : ms e.numberValue with
    | none =>
      show ms e.numberValue = _
      rw [hms]
      rfl
    | some mapping =>
      show (if e.numberValue = e.numberValue then
              some { mapping with tags := mapping.tags.map (bumpIf e) }
            else ms e.numberValue) = _
      rw [if_pos rfl]
      rfl
  · rw [if_neg hn]
    unfold applyEntry
    cases hms : ms e.numberValue with
    | none => rfl
    | some mapping => simp [hn]

lemma foldl_applyEntry_lookup (us : List UsedTag) (ms : Mappings) (n : String) :
    us.foldl applyEntry ms n
      = (ms n).map fun m => { m with tags := m.tags.map (finalTag us n) } := by
  induction us generalizing ms with
  | nil =>
    rw [List.foldl_nil]
    have hid : finalTag ([] : List UsedTag) n = id := funext fun t => finalTag_nil n t
    cases hn : ms n with
    | none => simp
    | some m => simp [hid]
  | cons e rest ih =>
    rw [List.foldl_cons, ih, applyEntry_lookup]
    by_cases hn : n = e.numberValue
    · rw [if_pos hn]
      have hcomp : (finalTag rest n ∘ bumpIf e) = finalTag (e :: rest) n :=
        funext fun t => finalTag_comp e rest n t hn.symm
      cases hm : ms n with
      | none => simp
      | some m =>
        simp [hcomp]
    · rw [if_neg hn]
      have hskip : finalTag (e :: rest) n = finalTag rest n :=
        funext fun t => finalTag_cons_skip e rest n t fun hc => hn hc.1.symm
      rw [hskip]

/-- The full lookup-level description of `recordTest`. -/
lemma recordTest_lookup (prev : AppState) (result : TestResult) (us : List UsedTag)
    (n : String) :
    (recordTest prev result us).mappings n
      = (prev.mappings n).map fun m => { m with tags := m.tags.map (finalTag us n) } :=
  foldl_applyEntry_lookup us prev.mappings n

/-! ## Length of generated numbers -/

lemma natToDigits_length :
    ∀ fuel n d : Nat, n < fuel → n < 10 ^ d → 1 ≤ d → (natToDigits fuel n).length ≤ d := by
  intro fuel
  induction fuel with
  | zero => omega
  | succ fuel ih =>
    intro n d hf hd h1
    by_cases h10 : n < 10
    · simp [natToDigits, h10]
      omega
    · have hd2 : 2 ≤ d := by
        by_contra hc
        have : d = 1 := by omega
        subst this
        simp at hd
        omega
      have hdiv : n / 10 < fuel := by
        have := Nat.div_lt_self (by omega : 0 < n) (by omega : 1 < 10)
        omega
      have hpow : n / 10 < 10 ^ (d - 1) := by
        rw [Nat.div_lt_iff_lt_mul (by omega : 0 < 10)]
        calc n < 10 ^ d := hd
        _ = 10 ^ (d - 1) * 10 := by
              rw [← pow_succ]
              congr 1
              omega
      have := ih (n / 10) (d - 1) hdiv hpow (by omega)
      simp [natToDigits, h10]
      omega

lemma natToString_length (n d : Nat) (h : n < 10 ^ d) (hd : 1 ≤ d) :
    (natToString n).length ≤ d :=
  natToDigits_length (n + 1) n d (Nat.lt_succ_self n) h hd

lemma padStart_length (s : String) (n : Nat) (c : Char) (h : s.length ≤ n) :
    (padStart s n c).length = n := by
  have hlen : ∀ l : List Char, (String.mk l).length = l.length := fun l => rfl
  have hs : s.length = s.data.length := rfl
  rw [padStart, hlen, List.length_append, List.length_replicate]
  omega

lemma randomNumber_length (digits v : Nat) (hv : v < 10 ^ digits) (hd : 1 ≤ digits) :
    (randomNumber digits v).length = digits :=
  padStart_length _ _ _ (natToString_length v digits hv hd)

lemma minDigits_pos (d : Difficulty) : 1 ≤ (difficultyConfig d).minDigits := by
  cases d <;> decide

/-! ## Record-object lemmas -/

lemma recordInsert_subset (l : List (Nat × String)) (k : Nat) (v : String) :
    ∀ p ∈ recordInsert l k v, p.1 = k ∨ p ∈ l := by
  induction l with
  | nil =>
    intro p hp
    simp only [recordInsert, List.mem_singleton] at hp
    subst hp
    exact Or.inl rfl
  | cons q rest ih =>
    intro p hp
    rw [recordInsert] at hp
    by_cases h1 : k < q.1
    · rw [if_pos h1] at hp
      rcases List.mem_cons.1 hp with rfl | hp2
      · exact Or.inl rfl
      · exact Or.inr hp2
    · rw [if_neg h1] at hp
      by_cases h2 : k = q.1
      · rw [if_pos h2] at hp
        rcases List.mem_cons.1 hp with rfl | hp2
        · exact Or.inl rfl
        · exact Or.inr (List.mem_cons_of_mem q hp2)
      · rw [if_neg h2] at hp
        rcases List.mem_cons.1 hp with rfl | hp2
        · exact Or.inr (List.mem_cons_self _ _)
        · rcases ih p hp2 with h3 | h3
          · exact Or.inl h3
          · exact Or.inr (List.mem_cons_of_mem q h3)

lemma recordInsert_sorted (l : List (Nat × String)) (k : Nat) (v : String)
    (h : l.Pairwise fun p q => p.1 < q.1) :
    (recordInsert l k v).Pairwise fun p q => p.1 < q.1 := by
  induction l with
  | nil => simp [recordInsert]
  | cons q rest ih =>
    rcases List.pairwise_cons.1 h with ⟨hq, hrest⟩
    rw [recordInsert]
    by_cases h1 : k < q.1
    · rw [if_pos h1]
      refine List.pairwise_cons.2 ⟨?_, h⟩
      intro p hp
      rcases List.mem_cons.1 hp with rfl | hp2
      · exact h1
      · exact lt_trans h1 (hq p hp2)
    · rw [if_neg h1]
      by_cases h2 : k = q.1
      · rw [if_pos h2]
        refine List.pairwise_cons.2 ⟨?_, hrest⟩
        intro p hp
        exact h2 ▸ hq p hp
      · rw [if_neg h2]
        refine List.pairwise_cons.2 ⟨?_, ih hrest⟩
        intro p hp
        rcases recordInsert_subset rest k v p hp with h3 | h3
        · omega
        · exact hq p h3

lemma lookupRecord_isSome_iff (l : List (Nat × String)) (k : Nat) :
    (lookupRecord l k).isSome = true ↔ k ∈ l.map Prod.fst := by
  induction l with
  | nil => simp [lookupRecord]
  | cons p rest ih =>
    by_cases h : k = p.1 <;> simp [lookupRecord, h, ih]

lemma lookupRecord_mem (l : List (Nat × String)) (k : Nat) (v : String)
    (h : lookupRecord l k = some v) : (k, v) ∈ l := by
  induction l with
  | nil => simp [lookupRecord] at h
  | cons p rest ih =>
    rw [lookupRecord] at h
    by_cases hk : k = p.1
    · rw [if_pos hk] at h
      injection h with h2
      subst hk
      rw [← h2]
      exact List.mem_cons_self p rest
    · rw [if_neg hk] at h
      exact List.mem_cons_of_mem p (ih h)

/-! ## The session invariant -/

/-- Structural invariant of every reachable session state: the target string
and the input-slot list have the same length, and the selection record holds
strictly ascending keys that index existing slots. -/
def SessionInv (s : Session) : Prop :=
  s.currentNumber.length = s.inputs.length ∧
  (s.selectedTags.Pairwise fun p q => p.1 < q.1) ∧
  ∀ p ∈ s.selectedTags, p.1 < s.inputs.length

lemma initialSession_inv : SessionInv initialSession := by
  refine ⟨rfl, ?_, ?_⟩ <;> simp [initialSession]

lemma step_inv {p q : AppState × Session} (hs : Step p q) (h : SessionInv p.2) :
    SessionInv q.2 := by
  cases hs with
  | setDifficulty a s d hu => exact h
  | start a s digits v hu hmin hmax hv =>
    have hd : 1 ≤ digits := le_trans (minDigits_pos s.difficulty) hmin
    refine ⟨?_, by simp, by simp⟩
    show (randomNumber digits v).length = (List.replicate digits "").length
    rw [randomNumber_length digits v hv hd, List.length_replicate]
  | tickWait a s hp => exact h
  | tickInput a s hp => exact h
  | inputChange a s value index hp hi hv =>
    refine ⟨?_, h.2.1, ?_⟩
    · show s.currentNumber.length = (s.inputs.set index value).length
      rw [List.length_set]
      exact h.1
    · intro p hp2
      have := h.2.2 p hp2
      show p.1 < (s.inputs.set index value).length
      rw [List.length_set]
      exact this
  | selectTag a s index tagId hp hi hc ht =>
    refine ⟨h.1, recordInsert_sorted _ _ _ h.2.1, ?_⟩
    intro p hp2
    show p.1 < s.inputs.length
    rcases recordInsert_subset _ _ _ p hp2 with h3 | h3
    · omega
    · exact h.2.2 p h3
  | setEditInput a s index value hp hi hc => exact ⟨h.1, h.2.1, h.2.2⟩
  | saveMapping a s index now hp hi hc hl =>
    dsimp only [saveMappingTarget]
    refine ⟨h.1, ?_, ?_⟩
    · split
      · exact recordInsert_sorted _ _ _ h.2.1
      · exact h.2.1
    · intro p hp2
      show p.1 < s.inputs.length
      split at hp2
      · rcases recordInsert_subset _ _ _ p hp2 with h3 | h3
        · omega
        · exact h.2.2 p h3
      · exact h.2.2 p hp2
  | finish a s tnow dateStr hcomp => exact ⟨h.1, h.2.1, h.2.2⟩

lemma reach_inv {a0 : AppState} {p : AppState × Session} (h : Reach a0 p) :
    SessionInv p.2 := by
  induction h with
  | base => exact initialSession_inv
  | step hr hs ih => exact step_inv hs ih

/-! ## Counting distinct bounded keys -/

lemma mem_of_nodup_length (ks : List Nat) (n : Nat) (hnd : ks.Nodup)
    (hlt : ∀ k ∈ ks, k < n) (hlen : ks.length = n) : ∀ i < n, i ∈ ks := by
  intro i hi
  have hsub : ks.toFinset ⊆ Finset.range n := by
    intro x hx
    exact Finset.mem_range.2 (hlt x (List.mem_toFinset.1 hx))
  have hcard : ks.toFinset.card = n := by
    rw [List.toFinset_card_of_nodup hnd, hlen]
  have heq : ks.toFinset = Finset.range n := by
    apply Finset.eq_of_subset_of_card_le hsub
    rw [hcard, Finset.card_range]
  have : i ∈ ks.toFinset := by
    rw [heq]
    exact Finset.mem_range.2 hi
  exact List.mem_toFinset.1 this

lemma length_eq_of_all_mem (ks : List Nat) (n : Nat) (hnd : ks.Nodup)
    (hlt : ∀ k ∈ ks, k < n) (hall : ∀ i < n, i ∈ ks) : ks.length = n := by
  have heq : ks.toFinset = Finset.range n := by
    apply Finset.Subset.antisymm
    · intro x hx
      exact Finset.mem_range.2 (hlt x (List.mem_toFinset.1 hx))
    · intro i hi
      exact List.mem_toFinset.2 (hall i (Finset.mem_range.1 hi))
  have := congrArg Finset.card heq
  rw [List.toFinset_card_of_nodup hnd, Finset.card_range] at this
  exact this

/-! ## Sorting lemmas for the chosen-string display -/

lemma insertNat_head (x : Nat) (l : List Nat) (h : ∀ y ∈ l, x < y) :
    insertNat x l = x :: l := by
  cases l with
  | nil => rfl
  | cons y t => rw [insertNat, if_pos (le_of_lt (h y (List.mem_cons_self y t)))]

lemma sortNat_sorted_id (l : List Nat) (h : l.Pairwise (· < ·)) : sortNat l = l := by
  induction l with
  | nil => rfl
  | cons x t ih =>
    rcases List.pairwise_cons.1 h with ⟨hx, ht⟩
    show insertNat x (sortNat t) = x :: t
    rw [ih ht, insertNat_head x t hx]

lemma insertByRepr_head (x : Nat) (l : List Nat)
    (h : ∀ y ∈ l, jsStrLt (natToString x).data (natToString y).data = true) :
    insertByRepr x l = x :: l := by
  cases l with
  | nil => rfl
  | cons y t => rw [insertByRepr, if_pos (h y (List.mem_cons_self y t))]

lemma sortByRepr_sorted_id (l : List Nat)
    (h : l.Pairwise fun a b => jsStrLt (natToString a).data (natToString b).data = true) :
    sortByRepr l = l := by
  induction l with
  | nil => rfl
  | cons x t ih =>
    rcases List.pairwise_cons.1 h with ⟨hx, ht⟩
    show insertByRepr x (sortByRepr t) = x :: t
    rw [ih ht, insertByRepr_head x t hx]

/-- On single-digit slot indices, the lexicographic order of the decimal
strings agrees with the numeric order. -/
lemma natToString_lt_of_lt_ten :
    ∀ i < 10, ∀ j < 10, i < j →
      jsStrLt (natToString i).data (natToString j).data = true := by decide

/-! ## A concrete session run reaching a finish-enabled review state with an
incorrect slot

`cexBase` is an application state in which every single digit carries exactly
one tag — the shape produced by one `addTag` call per digit on the seed state,
which is also the minimum required by the practice-unlocked gate.  From it a
session is run on target `"042"` with recall input `"043"` (slot 2 wrong);
slots 0 and 1 get their tags selected, and the wrong slot 2 goes through the
edit-mapping path. -/

/-- The single tag carried by digit `d` in `cexBase`. -/
def digitTag (d : String) : Tag :=
  { id := "t" ++ d, label := "tag" ++ d, usageCount := 0, successCount := 0 }

/-- The mapping of digit `d` in `cexBase`. -/
def digitMapping (d : String) : NumberMapping :=
  { id := d, number := d, tags := [digitTag d] }

/-- The string keys of the ten single-digit mappings. -/
def tenDigits : List String := ["0", "1", "2", "3", "4", "5", "6", "7", "8", "9"]

/-- Application state with one tag per single digit. -/
def cexBase : AppState :=
  { mappings :=
      tenDigits.foldl
        (fun acc d => fun k => if k = d then some (digitMapping d) else acc k)
        (fun _ => none),
    tests := [] }

/-- After the start event: Easy difficulty, 3 digits, target `"042"`. -/
def cexS1 : Session :=
  { difficulty := .Easy, phase := .show, currentNumber := "042",
    inputs := ["", "", ""], selectedTags := [], editInputs := [] }

def cexS2 : Session := { cexS1 with phase := .wait }

def cexS3 : Session := { cexS1 with phase := .input }

def cexS4 : Session := { cexS3 with inputs := ["0", "", ""] }

def cexS5 : Session := { cexS3 with inputs := ["0", "4", ""] }

/-- All slots filled; the machine has auto-transitioned to review.  Slot 2
holds `"3"` against target digit `"2"`: incorrect. -/
def cexS6 : Session := { cexS3 with inputs := ["0", "4", "3"], phase := .review }

def cexS7 : Session := { cexS6 with selectedTags := [(0, "t0")] }

def cexS8 : Session := { cexS6 with selectedTags := [(0, "t0"), (1, "t4")] }

def cexS9 : Session := { cexS8 with editInputs := [(2, "fish")] }

/-- The final pair: the save on the incorrect slot 2 ran `addTag` and
auto-selected the new tag `"2-99"`. -/
def cexFinal : AppState × Session := saveMappingTarget cexBase cexS9 2 99

lemma cex_step1 : Step (cexBase, initialSession) (cexBase, cexS1) :=
  Step.start cexBase initialSession 3 42 (by decide) (by decide) (by decide) (by decide)

lemma cex_step2 : Step (cexBase, cexS1) (cexBase, cexS2) :=
  Step.tickWait cexBase cexS1 rfl

lemma cex_step3 : Step (cexBase, cexS2) (cexBase, cexS3) :=
  Step.tickInput cexBase cexS2 rfl

lemma cex_step4 : Step (cexBase, cexS3) (cexBase, cexS4) :=
  Step.inputChange cexBase cexS3 "0" 0 rfl (by decide) (by decide)

lemma cex_step5 : Step (cexBase, cexS4) (cexBase, cexS5) :=
  Step.inputChange cexBase cexS4 "4" 1 rfl (by decide) (by decide)

lemma cex_step6 : Step (cexBase, cexS5) (cexBase, cexS6) :=
  Step.inputChange cexBase cexS5 "3" 2 rfl (by decide) (by decide)

lemma cex_step7 : Step (cexBase, cexS6) (cexBase, cexS7) :=
  Step.selectTag cexBase cexS6 0 "t0" rfl (by decide) (by decide) (by decide)

lemma cex_step8 : Step (cexBase, cexS7) (cexBase, cexS8) :=
  Step.selectTag cexBase cexS7 1 "t4" rfl (by decide) (by decide) (by decide)

lemma cex_step9 : Step (cexBase, cexS8) (cexBase, cexS9) :=
  Step.setEditInput cexBase cexS8 2 "fish" rfl (by decide) (by decide)

lemma cex_step10 : Step (cexBase, cexS9) cexFinal :=
  Step.saveMapping cexBase cexS9 2 99 rfl (by decide) (by decide) (by decide)

/-- The run above is a genuine execution of the session machine. -/
lemma cex_reach : Reach cexBase cexFinal :=
  Reach.step
    (Reach.step
      (Reach.step
        (Reach.step
          (Reach.step
            (Reach.step
              (Reach.step
                (Reach.step (Reach.step (Reach.step Reach.base cex_step1) cex_step2)
                  cex_step3)
                cex_step4)
              cex_step5)
            cex_step6)
          cex_step7)
        cex_step8)
      cex_step9)
    cex_step10

/-- Readable form of the final session state. -/
lemma cexFinal_snd :
    cexFinal.2 =
      { difficulty := .Easy, phase := .review, currentNumber := "042",
        inputs := ["0", "4", "3"],
        selectedTags := [(0, "t0"), (1, "t4"), (2, "2-99")],
        editInputs := [(2, "fish")] } := by decide

/-! ## A concrete Expert session with eleven slots

Eleven slots means slot indices 0–10; `Object.keys` stringifies them, and the
default `sort()` places `"10"` before `"2"`.  The run below answers every slot
correctly, then selects tags for slots 2 and 10 only. -/

/-- The eleven-digit Expert target. -/
def c8Num : String := "00300000007"

def c8S1 : Session :=
  { difficulty := .Expert, phase := .idle, currentNumber := "",
    inputs := [], selectedTags := [], editInputs := [] }

def c8S2 : Session :=
  { difficulty := .Expert, phase := .show, currentNumber := c8Num,
    inputs := ["", "", "", "", "", "", "", "", "", "", ""],
    selectedTags := [], editInputs := [] }

def c8S3 : Session := { c8S2 with phase := .wait }

def c8S4 : Session := { c8S2 with phase := .input }

def c8S5 : Session := { c8S4 with inputs := ["0", "", "", "", "", "", "", "", "", "", ""] }

def c8S6 : Session := { c8S4 with inputs := ["0", "0", "", "", "", "", "", "", "", "", ""] }

def c8S7 : Session := { c8S4 with inputs := ["0", "0", "3", "", "", "", "", "", "", "", ""] }

def c8S8 : Session := { c8S4 with inputs := ["0", "0", "3", "0", "", "", "", "", "", "", ""] }

def c8S9 : Session := { c8S4 with inputs := ["0", "0", "3", "0", "0", "", "", "", "", "", ""] }

def c8S10 : Session := { c8S4 with inputs := ["0", "0", "3", "0", "0", "0", "", "", "", "", ""] }

def c8S11 : Session := { c8S4 with inputs := ["0", "0", "3", "0", "0", "0", "0", "", "", "", ""] }

def c8S12 : Session := { c8S4 with inputs := ["0", "0", "3", "0", "0", "0", "0", "0", "", "", ""] }

def c8S13 : Session := { c8S4 with inputs := ["0", "0", "3", "0", "0", "0", "0", "0", "0", "", ""] }

def c8S14 : Session := { c8S4 with inputs := ["0", "0", "3", "0", "0", "0", "0", "0", "0", "0", ""] }

/-- All eleven slots filled and correct; the machine is in review. -/
def c8S15 : Session :=
  { c8S4 with inputs := ["0", "0", "3", "0", "0", "0", "0", "0", "0", "0", "7"],
              phase := .review }

def c8S16 : Session := { c8S15 with selectedTags := [(2, "t3")] }

/-- The final review state: tags selected for slots 2 and 10. -/
def c8S17 : Session := { c8S15 with selectedTags := [(2, "t3"), (10, "t7")] }

lemma c8_step1 : Step (cexBase, initialSession) (cexBase, c8S1) :=
  Step.setDifficulty cexBase initialSession .Expert (by decide)

lemma c8_step2 : Step (cexBase, c8S1) (cexBase, c8S2) :=
  Step.start cexBase c8S1 11 300000007 (by decide) (by decide) (by decide) (by decide)

lemma c8_step3 : Step (cexBase, c8S2) (cexBase, c8S3) :=
  Step.tickWait cexBase c8S2 rfl

lemma c8_step4 : Step (cexBase, c8S3) (cexBase, c8S4) :=
  Step.tickInput cexBase c8S3 rfl

lemma c8_step5 : Step (cexBase, c8S4) (cexBase, c8S5) :=
  Step.inputChange cexBase c8S4 "0" 0 rfl (by decide) (by decide)

lemma c8_step6 : Step (cexBase, c8S5) (cexBase, c8S6) :=
  Step.inputChange cexBase c8S5 "0" 1 rfl (by decide) (by decide)

lemma c8_step7 : Step (cexBase, c8S6) (cexBase, c8S7) :=
  Step.inputChange cexBase c8S6 "3" 2 rfl (by decide) (by decide)

lemma c8_step8 : Step (cexBase, c8S7) (cexBase, c8S8) :=
  Step.inputChange cexBase c8S7 "0" 3 rfl (by decide) (by decide)

lemma c8_step9 : Step (cexBase, c8S8) (cexBase, c8S9) :=
  Step.inputChange cexBase c8S8 "0" 4 rfl (by decide) (by decide)

lemma c8_step10 : Step (cexBase, c8S9) (cexBase, c8S10) :=
  Step.inputChange cexBase c8S9 "0" 5 rfl (by decide) (by decide)

lemma c8_step11 : Step (cexBase, c8S10) (cexBase, c8S11) :=
  Step.inputChange cexBase c8S10 "0" 6 rfl (by decide) (by decide)

lemma c8_step12 : Step (cexBase, c8S11) (cexBase, c8S12) :=
  Step.inputChange cexBase c8S11 "0" 7 rfl (by decide) (by decide)

lemma c8_step13 : Step (cexBase, c8S12) (cexBase, c8S13) :=
  Step.inputChange cexBase c8S12 "0" 8 rfl (by decide) (by decide)

lemma c8_step14 : Step (cexBase, c8S13) (cexBase, c8S14) :=
  Step.inputChange cexBase c8S13 "0" 9 rfl (by decide) (by decide)

lemma c8_step15 : Step (cexBase, c8S14) (cexBase, c8S15) :=
  Step.inputChange cexBase c8S14 "7" 10 rfl (by decide) (by decide)

lemma c8_step16 : Step (cexBase, c8S15) (cexBase, c8S16) :=
  Step.selectTag cexBase c8S15 2 "t3" rfl (by decide) (by decide) (by decide)

lemma c8_step17 : Step (cexBase, c8S16) (cexBase, c8S17) :=
  Step.selectTag cexBase c8S16 10 "t7" rfl (by decide) (by decide) (by decide)

/-- The eleven-slot run above is a genuine execution of the session machine. -/
lemma c8_reach : Reach cexBase (cexBase, c8S17) :=
  Reach.step
    (Reach.step
      (Reach.step
        (Reach.step
          (Reach.step
            (Reach.step
              (Reach.step
                (Reach.step
                  (Reach.step
                    (Reach.step
                      (Reach.step
                        (Reach.step
                          (Reach.step
                            (Reach.step
                              (Reach.step
                                (Reach.step (Reach.step Reach.base c8_step1) c8_step2)
                                c8_step3)
                              c8_step4)
                            c8_step5)
                          c8_step6)
                        c8_step7)
                      c8_step8)
                    c8_step9)
                  c8_step10)
                c8_step11)
              c8_step12)
            c8_step13)
          c8_step14)
        c8_step15)
      c8_step16)
    c8_step17

/-! ## Mapping Store reachability and the counter invariant -/

/-- Lookup-level description of `addTag`. -/
lemma addTag_lookup (prev : AppState) (nv l : String) (now : Nat) (k : String) :
    (addTag prev nv l now).1.mappings k
      = if k = nv then
          (prev.mappings nv).map fun mapping =>
            { mapping with
              tags := mapping.tags ++
                [{ id := nv ++ "-" ++ natToString now, label := l,
                   usageCount := 0, successCount := 0 }] }
        else prev.mappings k := by
  dsimp only [addTag]
  cases ha : prev.mappings nv with
  | none =>
    by_cases hk : k = nv
    · subst hk
      rw [if_pos rfl, ha]
      rfl
    · rw [if_neg hk]
  | some mapping =>
    by_cases hk : k = nv
    · subst hk
      rw [if_pos rfl]
      simp
    · rw [if_neg hk]
      show (if k = nv then _ else prev.mappings k) = prev.mappings k
      rw [if_neg hk]

/-- Lookup-level description of `updateTag`. -/
lemma updateTag_lookup (prev : AppState) (nv tid l : String) (k : String) :
    (updateTag prev nv tid l).mappings k
      = if k = nv then
          (prev.mappings nv).map fun mapping =>
            { mapping with
              tags := mapping.tags.map fun tag =>
                if tag.id = tid then { tag with label := l } else tag }
        else prev.mappings k := by
  unfold updateTag
  cases ha : prev.mappings nv with
  | none =>
    by_cases hk : k = nv
    · subst hk
      rw [if_pos rfl, ha]
      rfl
    · rw [if_neg hk]
  | some mapping =>
    by_cases hk : k = nv
    · subst hk
      rw [if_pos rfl]
      simp
    · rw [if_neg hk]
      show (if k = nv then _ else prev.mappings k) = prev.mappings k
      rw [if_neg hk]

/-- The Mapping Store states reachable from the seed by any sequence of
`addTag`, `updateTag` and `recordTest` operations. -/
inductive StoreReach : AppState → Prop where
  | seed : StoreReach seedState
  | stepAddTag {s : AppState} (h : StoreReach s) (numberValue label : String) (now : Nat) :
      StoreReach (addTag s numberValue label now).1
  | stepUpdateTag {s : AppState} (h : StoreReach s) (numberValue tagId label : String) :
      StoreReach (updateTag s numberValue tagId label)
  | stepRecordTest {s : AppState} (h : StoreReach s) (result : TestResult)
      (us : List UsedTag) :
      StoreReach (recordTest s result us)

/-- The counter invariant: every tag of every mapping satisfies
`successCount ≤ usageCount`. -/
def CountersOK (a : AppState) : Prop :=
  ∀ n m, a.mappings n = some m → ∀ t ∈ m.tags, t.successCount ≤ t.usageCount

lemma seed_countersOK : CountersOK seedState := by
  intro n m hm t ht
  by_cases hmem : n ∈ generateNumbers
  · rw [seed_lookup n hmem] at hm
    injection hm with hm
    rw [← hm] at ht
    simp at ht
  · rw [seed_lookup_not_mem n hmem] at hm
    cases hm

lemma addTag_countersOK {a : AppState} (h : CountersOK a) (nv l : String) (now : Nat) :
    CountersOK (addTag a nv l now).1 := by
  intro n m hm t ht
  rw [addTag_lookup] at hm
  by_cases hk : n = nv
  · rw [if_pos hk] at hm
    cases ha : a.mappings nv with
    | none =>
      rw [ha] at hm
      cases hm
    | some m0 =>
      rw [ha] at hm
      injection hm with hm
      rw [← hm] at ht
      rcases List.mem_append.1 ht with h1 | h1
      · exact h nv m0 ha t h1
      · rcases List.mem_singleton.1 h1 with rfl
        exact le_refl 0
  · rw [if_neg hk] at hm
    exact h n m hm t ht

lemma updateTag_countersOK {a : AppState} (h : CountersOK a) (nv tid l : String) :
    CountersOK (updateTag a nv tid l) := by
  intro n m hm t ht
  rw [updateTag_lookup] at hm
  by_cases hk : n = nv
  · rw [if_pos hk] at hm
    cases ha : a.mappings nv with
    | none =>
      rw [ha] at hm
      cases hm
    | some m0 =>
      rw [ha] at hm
      injection hm with hm
      rw [← hm] at ht
      rcases List.mem_map.1 ht with ⟨t0, ht0, rfl⟩
      have := h nv m0 ha t0 ht0
      by_cases hid : t0.id = tid <;> simp [hid] <;> exact this
  · rw [if_neg hk] at hm
    exact h n m hm t ht

lemma countCorrect_le (us : List UsedTag) (n : String) (t : Tag) :
    us.countP (entryMatchesCorrect n t) ≤ us.countP (entryMatches n t) := by
  induction us with
  | nil => simp
  | cons e rest ih =>
    rw [List.countP_cons, List.countP_cons]
    by_cases h1 : entryMatchesCorrect n t e = true
    · have h2 : entryMatches n t e = true := by
        simp only [entryMatchesCorrect, decide_eq_true_eq] at h1
        simp only [entryMatches, decide_eq_true_eq]
        exact ⟨h1.1, h1.2.1⟩
      simp only [h1, h2, if_true]
      omega
    · have h1f : entryMatchesCorrect n t e = false := by
        cases hb : entryMatchesCorrect n t e
        · rfl
        · exact absurd hb h1
      cases hb : entryMatches n t e <;> simp [h1f, hb] <;> omega

lemma recordTest_countersOK {a : AppState} (h : CountersOK a) (r : TestResult)
    (us : List UsedTag) : CountersOK (recordTest a r us) := by
  intro n m hm t ht
  rw [recordTest_lookup] at hm
  cases ha : a.mappings n with
  | none =>
    rw [ha] at hm
    cases hm
  | some m0 =>
    rw [ha] at hm
    injection hm with hm
    rw [← hm] at ht
    rcases List.mem_map.1 ht with ⟨t0, ht0, rfl⟩
    have hle := h n m0 ha t0 ht0
    have hc := countCorrect_le us n t0
    simp only [finalTag]
    omega

lemma storeReach_countersOK {a : AppState} (h : StoreReach a) : CountersOK a := by
  induction h with
  | seed => exact seed_countersOK
  | stepAddTag h nv l now ih => exact addTag_countersOK ih nv l now
  | stepUpdateTag h nv tid l ih => exact updateTag_countersOK ih nv tid l
  | stepRecordTest h r us ih => exact recordTest_countersOK ih r us

/-! ## Claim C3 -/

/-- C3 counterexample: calling `addTag` on the seed state with the absent key
`"1000"` leaves the state unchanged, as the claim says — but the call still
returns the freshly generated id `"1000-5"`, a nonempty (hence truthy)
string, so it does not "return no tag id" and a caller cannot detect the
no-op from the returned value. -/
theorem c3_counterexample :
    (addTag seedState "1000" "oak" 5).1 = seedState ∧
    (addTag seedState "1000" "oak" 5).2 = "1000-5" ∧
    ("1000-5" : String) ≠ "" := by
  have h : seedState.mappings "1000" = none := seed_lookup_not_mem "1000" (by decide)
  refine ⟨?_, by decide, by decide⟩
  dsimp only [addTag]
  rw [h]

/-- C3 (amended): for every call `addTag(number, label)` in which `number`
is not an existing key of the mappings dictionary, the state is left
unchanged, but the call still returns the freshly generated id
`number ++ "-" ++ now`, which is never the empty string; the absence of an
effect is therefore not observable from the returned value. -/
theorem c3_addTag_missing_key (prev : AppState) (numberValue label : String)
    (now : Nat) (h : prev.mappings numberValue = none) :
    (addTag prev numberValue label now).1 = prev ∧
    (addTag prev numberValue label now).2 = numberValue ++ "-" ++ natToString now ∧
    (addTag prev numberValue label now).2 ≠ "" := by
  have h2 : (addTag prev numberValue label now).2
      = numberValue ++ "-" ++ natToString now := rfl
  refine ⟨?_, h2, ?_⟩
  · dsimp only [addTag]
    rw [h]
  · rw [h2]
    intro hc
    have hlen := congrArg String.length hc
    have hdash : ("-" : String).length = 1 := rfl
    have hnil : ("" : String).length = 0 := rfl
    rw [String.length_append, String.length_append, hdash, hnil] at hlen
    omega

/-- C3 witness: the amended statement at the empty pre-hydration state and
key `"7"`. -/
theorem c3_witness :
    (addTag INITIAL_STATE "7" "sun" 0).1 = INITIAL_STATE ∧
    (addTag INITIAL_STATE "7" "sun" 0).2 = "7" ++ "-" ++ natToString 0 ∧
    (addTag INITIAL_STATE "7" "sun" 0).2 ≠ "" :=
  c3_addTag_missing_key INITIAL_STATE "7" "sun" 0 rfl

/-! ## Claim C4 -/

/-- C4: on startup, an absent stored value is replaced by the freshly
generated seed state, as the spec requires — but a stored value on which
`JSON.parse` throws is *not*: the `loadState` promise never settles (the
exception escapes the transaction success callback before `resolve` runs), so
the provider remains on the empty `INITIAL_STATE`, which differs from the
seed already at the mapping of `"0"`.  A parse failure is therefore *not*
observationally identical to an absent value, contradicting the spec's
required fallback. -/
theorem c4_malformed_not_reseeded (parse : String → ParseResult AppState)
    (s : String) (h : parse s = .thrown) :
    providerStateAfterLoad (.value s) parse = INITIAL_STATE ∧
    providerStateAfterLoad .absent parse = seedState ∧
    INITIAL_STATE.mappings "0" = none ∧
    seedState.mappings "0" = some { id := "0", number := "0", tags := [] } := by
  refine ⟨?_, rfl, rfl, seed_lookup "0" (by decide)⟩
  have hl : loadState (.value s) parse = LoadOutcome.neverSettles := by
    show (match parse s with
          | ParseResult.ok v => LoadOutcome.resolvedState v
          | ParseResult.thrown => LoadOutcome.neverSettles) = _
    rw [h]
  unfold providerStateAfterLoad
  rw [hl]

/-- C4 witness: the behaviour at the concrete malformed stored blob `"{"`
(on which `JSON.parse` throws a `SyntaxError`). -/
theorem c4_witness :
    providerStateAfterLoad (.value "\x7b") (fun _ => ParseResult.thrown) = INITIAL_STATE ∧
    providerStateAfterLoad .absent (fun _ => ParseResult.thrown) = seedState ∧
    INITIAL_STATE.mappings "0" = none ∧
    seedState.mappings "0" = some { id := "0", number := "0", tags := [] } :=
  c4_malformed_not_reseeded (fun _ => ParseResult.thrown) "\x7b" rfl

/-! ## Claim C5 -/

/-- C5: lookup-level description of `applyTestOutcome`/`recordTest`.  For
every key, the stored mapping (when present) has each tag's counters grown by
the number of entries matching that tag — usage by every matching entry,
success by the matching entries flagged correct — an absent key stays absent,
the result record is prepended to the history, and a tag matched by no entry
is left completely unchanged. -/
theorem c5_applyTestOutcome (prev : AppState) (result : TestResult)
    (us : List UsedTag) (n : String) :
    (recordTest prev result us).mappings n
      = (prev.mappings n).map (fun m => { m with tags := m.tags.map (finalTag us n) }) ∧
    (recordTest prev result us).tests = result :: prev.tests ∧
    ∀ t : Tag, us.countP (entryMatches n t) = 0 → finalTag us n t = t := by
  refine ⟨recordTest_lookup prev result us n, rfl, ?_⟩
  intro t hzero
  have hzero2 : us.countP (entryMatchesCorrect n t) = 0 := by
    rw [List.countP_eq_zero] at hzero ⊢
    intro a ha
    have hm := hzero a ha
    simp only [entryMatches, decide_eq_true_eq] at hm
    simp only [entryMatchesCorrect, decide_eq_true_eq]
    rintro ⟨x1, x2, -⟩
    exact hm ⟨x1, x2⟩
  simp [finalTag, hzero, hzero2]

/-- A two-tag mapping used to instantiate C5. -/
def c5prev : AppState :=
  { mappings := fun k =>
      if k = "5" then
        some { id := "5", number := "5",
               tags := [{ id := "x", label := "lab", usageCount := 2, successCount := 1 },
                        { id := "y", label := "lab2", usageCount := 0, successCount := 0 }] }
      else none,
    tests := [] }

def c5res : TestResult :=
  { id := "r1", date := "2026-01-01T00:00:00.000Z", difficulty := .Easy, successRate := 100 }

/-- Two entries hit tag `"x"` of `"5"`, one entry targets the absent key
`"6"`, and tag `"y"` is matched by nothing. -/
def c5used : List UsedTag :=
  [⟨"5", "x", true⟩, ⟨"5", "x", false⟩, ⟨"6", "z", true⟩]

/-- C5 witness: the description instantiated on `c5prev`, with the untouched
tag hypothesis discharged on tag `"y"`. -/
theorem c5_witness :
    (recordTest c5prev c5res c5used).mappings "5"
      = (c5prev.mappings "5").map
          (fun m => { m with tags := m.tags.map (finalTag c5used "5") }) ∧
    (recordTest c5prev c5res c5used).tests = c5res :: c5prev.tests ∧
    finalTag c5used "5" { id := "y", label := "lab2", usageCount := 0, successCount := 0 }
      = { id := "y", label := "lab2", usageCount := 0, successCount := 0 } := by
  have h := c5_applyTestOutcome c5prev c5res c5used "5"
  exact ⟨h.1, h.2.1,
    h.2.2 { id := "y", label := "lab2", usageCount := 0, successCount := 0 } (by decide)⟩

/-! ## Claim C6 -/

/-- C6: in every state reachable from the seed by any sequence of `addTag`,
`updateTag` and `recordTest` operations, every tag of every mapping satisfies
`successCount ≤ usageCount` (both counters are naturals, so `0 ≤ successCount`
holds by typing). -/
theorem c6_counters (a : AppState) (h : StoreReach a) (n : String)
    (m : NumberMapping) (hm : a.mappings n = some m) (t : Tag) (ht : t ∈ m.tags) :
    t.successCount ≤ t.usageCount :=
  storeReach_countersOK h n m hm t ht

/-- The state after one `addTag` on the seed, and the lookup that exhibits
its single tag. -/
def c6state : AppState := (addTag seedState "0" "sun" 5).1

lemma c6state_lookup :
    c6state.mappings "0"
      = some { id := "0", number := "0",
               tags := [{ id := "0" ++ "-" ++ natToString 5, label := "sun",
                          usageCount := 0, successCount := 0 }] } := by
  show (addTag seedState "0" "sun" 5).1.mappings "0" = _
  rw [addTag_lookup, if_pos rfl, seed_lookup "0" (by decide)]
  rfl

/-- C6 witness: the invariant read off the tag created by one `addTag` on the
seed. -/
theorem c6_witness :
    ({ id := "0" ++ "-" ++ natToString 5, label := "sun",
       usageCount := 0, successCount := 0 } : Tag).successCount
      ≤ ({ id := "0" ++ "-" ++ natToString 5, label := "sun",
           usageCount := 0, successCount := 0 } : Tag).usageCount :=
  c6_counters c6state (StoreReach.stepAddTag StoreReach.seed "0" "sun" 5) "0"
    { id := "0", number := "0",
      tags := [{ id := "0" ++ "-" ++ natToString 5, label := "sun",
                 usageCount := 0, successCount := 0 }] }
    c6state_lookup
    { id := "0" ++ "-" ++ natToString 5, label := "sun",
      usageCount := 0, successCount := 0 }
    (by simp)

/-! ## Claim C7 -/

/-- C7: `getTagRates` returns `usageRate = 0` when `maxUsageInGroup = 0` and
`successRate = 0` when `usageCount = 0`; otherwise both are the rounded
percentage ratios.  In particular a tag with 4 uses and 2 successes in a
group whose maximum usage is 8 rates 50/50, and rounding is half-up (a tag
with 1 use in a group of maximum 8 has `usageRate` `round(12.5) = 13`). -/
theorem c7_rates :
    (∀ t : Tag, (getTagRates t 0).usageRate = 0) ∧
    (∀ (i l : String) (sc mu : Nat),
        (getTagRates { id := i, label := l, usageCount := 0, successCount := sc } mu).successRate
          = 0) ∧
    getTagRates { id := "a", label := "b", usageCount := 4, successCount := 2 } 8
      = { usageRate := 50, successRate := 50 } ∧
    getTagRates { id := "a", label := "b", usageCount := 1, successCount := 1 } 8
      = { usageRate := 13, successRate := 100 } := by
  refine ⟨?_, ?_, ?_, ?_⟩
  · intro t
    simp [getTagRates]
  · intro i l sc mu
    simp [getTagRates]
  · show ({ usageRate := jsRound ((4 : ℚ) / (8 : ℚ) * 100),
            successRate := jsRound ((2 : ℚ) / (4 : ℚ) * 100) } : TagRates) = _
    unfold jsRound
    norm_num
  · show ({ usageRate := jsRound ((1 : ℚ) / (8 : ℚ) * 100),
            successRate := jsRound ((1 : ℚ) / (1 : ℚ) * 100) } : TagRates) = _
    unfold jsRound
    norm_num

/-! ## Claim C9 -/

/-- C9 counterexample: with `now = 0`, a test stamped 5 seconds *after* `now`
is counted by the source's 24-hour filter, whereas the closed-interval
`recentCount` of the spec does not count it. -/
theorem c9_counterexample :
    testsLast24h [5000] 0 = 1 ∧
    recentCount [5000] (24 * 60 * 60 * 1000) 0 = 0 ∧
    ¬((5000 : ℤ) ≤ 0) := ⟨by decide, by decide, by decide⟩

/-- C9 (amended): the source's recent-test count keeps every test whose
timestamp is at least `now` minus 24 hours, with *no upper bound*: it equals
the spec's closed-interval count plus the number of tests stamped strictly
after `now`. -/
theorem c9_no_upper_bound (tests : List ℤ) (now : ℤ) :
    testsLast24h tests now
      = recentCount tests (24 * 60 * 60 * 1000) now
        + (tests.filter fun d => decide (now < d)).length := by
  induction tests with
  | nil => rfl
  | cons d rest ih =>
    simp only [testsLast24h, recentCount, List.filter_cons] at ih ⊢
    by_cases h1 : now - 24 * 60 * 60 * 1000 ≤ d
    · have e1 : decide (now - 24 * 60 * 60 * 1000 ≤ d) = true := decide_eq_true h1
      by_cases h2 : d ≤ now
      · have e2 : decide (now - 24 * 60 * 60 * 1000 ≤ d ∧ d ≤ now) = true :=
          decide_eq_true ⟨h1, h2⟩
        have e3 : decide (now < d) = false := decide_eq_false (by omega)
        simp only [e1, e2, e3, if_true, if_false, List.length_cons, Bool.false_eq_true]
        omega
      · have e2 : decide (now - 24 * 60 * 60 * 1000 ≤ d ∧ d ≤ now) = false :=
          decide_eq_false fun hc => h2 hc.2
        have e3 : decide (now < d) = true := decide_eq_true (by omega)
        simp only [e1, e2, e3, if_true, if_false, List.length_cons, Bool.false_eq_true]
        omega
    · have e1 : decide (now - 24 * 60 * 60 * 1000 ≤ d) = false := decide_eq_false h1
      have e2 : decide (now - 24 * 60 * 60 * 1000 ≤ d ∧ d ≤ now) = false :=
        decide_eq_false fun hc => h1 hc.1
      have e3 : decide (now < d) = false := decide_eq_false (by omega)
      simp only [e1, e2, e3, if_true, if_false, Bool.false_eq_true]
      omega

/-! ## Claim C10 -/

/-- C10: when every entry of the `usedTags` list targets the same
`(number, tagId)` pair — repeated digits answered with the same tag — the
fold reads each partially updated mapping, so the matching tag's usage
counter grows by the full number of entries and its success counter by the
number of entries flagged correct; every other tag is untouched. -/
theorem c10_repeated_entries (prev : AppState) (r : TestResult)
    (us : List UsedTag) (n tid : String) (m : NumberMapping)
    (hm : prev.mappings n = some m)
    (hall : ∀ e ∈ us, e.numberValue = n ∧ e.tagId = tid) :
    (recordTest prev r us).mappings n
      = some { m with tags := m.tags.map fun t =>
          if t.id = tid then
            { t with usageCount := t.usageCount + us.length,
                     successCount := t.successCount + us.countP (fun e => e.correct) }
          else t } := by
  have hfun : ∀ t : Tag, finalTag us n t
      = if t.id = tid then
          { t with usageCount := t.usageCount + us.length,
                   successCount := t.successCount + us.countP (fun e => e.correct) }
        else t := by
    intro t
    by_cases hid : t.id = tid
    · have hcount : us.countP (entryMatches n t) = us.length := by
        rw [List.countP_eq_length]
        intro e he
        rcases hall e he with ⟨h1, h2⟩
        simp [entryMatches, h1, h2, hid]
      have hcorr : us.countP (entryMatchesCorrect n t) = us.countP (fun e => e.correct) := by
        apply List.countP_congr
        intro e he
        rcases hall e he with ⟨h1, h2⟩
        cases hc : e.correct <;> simp [entryMatchesCorrect, h1, h2, hid, hc]
      simp [finalTag, hcount, hcorr, hid]
    · have hcount : us.countP (entryMatches n t) = 0 := by
        rw [List.countP_eq_zero]
        intro e he
        rcases hall e he with ⟨h1, h2⟩
        simp only [entryMatches, decide_eq_true_eq]
        rintro ⟨-, h3⟩
        rw [h2] at h3
        exact hid h3.symm
      have hcorr : us.countP (entryMatchesCorrect n t) = 0 := by
        rw [List.countP_eq_zero]
        intro e he
        rcases hall e he with ⟨h1, h2⟩
        simp only [entryMatchesCorrect, decide_eq_true_eq]
        rintro ⟨-, h3, -⟩
        rw [h2] at h3
        exact hid h3.symm
      simp [finalTag, hcount, hcorr, hid]
  have hfe : finalTag us n
      = fun t : Tag =>
          if t.id = tid then
            { t with usageCount := t.usageCount + us.length,
                     successCount := t.successCount + us.countP (fun e => e.correct) }
          else t := funext hfun
  rw [recordTest_lookup, hm, hfe]
  rfl

/-- A one-tag mapping of digit `"7"` used to instantiate C10. -/
def c10prev : AppState :=
  { mappings := fun k =>
      if k = "7" then
        some { id := "7", number := "7",
               tags := [{ id := "a", label := "seven", usageCount := 1, successCount := 1 }] }
      else none,
    tests := [] }

def c10res : TestResult :=
  { id := "r2", date := "2026-01-02T00:00:00.000Z", difficulty := .Hard, successRate := 67 }

/-- Three entries for the same pair `("7", "a")`, two of them correct. -/
def c10used : List UsedTag :=
  [⟨"7", "a", true⟩, ⟨"7", "a", false⟩, ⟨"7", "a", true⟩]

/-- C10 witness: the accumulation instantiated on `c10prev`. -/
theorem c10_witness :
    (recordTest c10prev c10res c10used).mappings "7"
      = some { id := "7", number := "7",
               tags := ([{ id := "a", label := "seven",
                           usageCount := 1, successCount := 1 }] : List Tag).map fun t =>
                 if t.id = "a" then
                   { t with usageCount := t.usageCount + c10used.length,
                            successCount := t.successCount + c10used.countP (fun e => e.correct) }
                 else t } :=
  c10_repeated_entries c10prev c10res c10used "7" "a"
    { id := "7", number := "7",
      tags := [{ id := "a", label := "seven", usageCount := 1, successCount := 1 }] }
    rfl (by decide)

/-! ## Claim C1 -/

/-- C1 counterexample: a reachable Review-phase state of the session machine
in which slot 2's input (`"3"`) differs from the target digit (`"2"`) and yet
the finish control is enabled — the wrong slot was resolved through the
edit-mapping path, whose `addTag` return id is auto-selected, so an incorrect
slot *can* reach a finish-enabled state. -/
theorem c1_counterexample :
    Reach cexBase cexFinal ∧
    cexFinal.2.phase = Phase.review ∧
    isComplete cexFinal.2 = true ∧
    cexFinal.2.inputs.getD 2 "" ≠ charAt cexFinal.2.currentNumber 2 :=
  ⟨cex_reach, by decide, by decide, by decide⟩

/-- C1 (amended): in every reachable Review-phase state, the finish control
is enabled exactly when every slot has a tag selection recorded — but a slot
need not be correct to carry a selection (see the counterexample), so the
gate is completeness-of-selections, not correctness. -/
theorem c1_finish_gate (a0 a : AppState) (s : Session) (h : Reach a0 (a, s))
    (hrev : s.phase = Phase.review) :
    isComplete s = true ↔ allSlotsSelected s = true := by
  have hinv : SessionInv s := reach_inv h
  obtain ⟨hlen, hsorted, hbound⟩ := hinv
  have hnd : (s.selectedTags.map Prod.fst).Nodup := by
    have h2 : (s.selectedTags.map Prod.fst).Pairwise (· < ·) :=
      List.pairwise_map.2 hsorted
    exact h2.imp Nat.ne_of_lt
  have hklt : ∀ k ∈ s.selectedTags.map Prod.fst, k < s.inputs.length := by
    intro k hk
    rcases List.mem_map.1 hk with ⟨p, hp, rfl⟩
    exact hbound p hp
  constructor
  · intro hc
    have hc2 : s.selectedTags.length = s.currentNumber.length := by
      unfold isComplete at hc
      rw [Bool.and_eq_true] at hc
      exact of_decide_eq_true hc.2
    unfold allSlotsSelected
    rw [List.all_eq_true]
    intro i hi
    rw [List.mem_range] at hi
    have hmem : i ∈ s.selectedTags.map Prod.fst :=
      mem_of_nodup_length _ _ hnd hklt (by rw [List.length_map]; omega) i hi
    rw [lookupRecord_isSome_iff]
    exact hmem
  · intro hall
    unfold allSlotsSelected at hall
    rw [List.all_eq_true] at hall
    have hlen2 : (s.selectedTags.map Prod.fst).length = s.inputs.length := by
      apply length_eq_of_all_mem _ _ hnd hklt
      intro i hi
      rw [← lookupRecord_isSome_iff]
      exact hall i (List.mem_range.2 hi)
    rw [List.length_map] at hlen2
    unfold isComplete
    rw [Bool.and_eq_true]
    exact ⟨decide_eq_true hrev, decide_eq_true (by omega)⟩

/-- C1 witness: the gate equivalence read off the concrete run `cexFinal`. -/
theorem c1_witness :
    isComplete cexFinal.2 = true ↔ allSlotsSelected cexFinal.2 = true :=
  c1_finish_gate cexBase cexFinal.1 cexFinal.2 cex_reach (by decide)

/-! ## Claim C2 -/

/-- C2 counterexample: at the reachable state `cexFinal`, the `usedTags` list
built at finish *does* contain the entry for the tag `"2-99"` created through
the edit-mapping path for the incorrectly answered slot 2, flagged
`correct = false`; and handing that list to `recordTest` increments that
tag's `usageCount` from 0 to 1 (its `successCount` stays 0). -/
theorem c2_counterexample :
    Reach cexBase cexFinal ∧
    (⟨"2", "2-99", false⟩ : UsedTag) ∈ buildUsedTags cexFinal.2 ∧
    (recordTest cexFinal.1 c5res (buildUsedTags cexFinal.2)).mappings "2"
      = some { id := "2", number := "2",
               tags := [digitTag "2",
                        { id := "2-99", label := "fish",
                          usageCount := 1, successCount := 0 }] } :=
  ⟨cex_reach, by decide, by decide⟩

/-- C2 (amended): every slot with a selection contributes an entry to the
`usedTags` list with its correctness recomputed; in particular a tag selected
for an *incorrect* slot is included with `correct = false`, and finishing
increments its stored `usageCount` by at least one (per the count-based
description of `recordTest`). -/
theorem c2_incorrect_slot_counted (a : AppState) (s : Session) (i : Nat)
    (tid : String) (r : TestResult) (m : NumberMapping) (t : Tag)
    (hsel : lookupRecord s.selectedTags i = some tid)
    (hinc : s.inputs.getD i "" ≠ charAt s.currentNumber i)
    (hm : a.mappings (charAt s.currentNumber i) = some m)
    (ht : t ∈ m.tags) (hid : t.id = tid) :
    (⟨charAt s.currentNumber i, tid, false⟩ : UsedTag) ∈ buildUsedTags s ∧
    t.usageCount + 1
      ≤ (finalTag (buildUsedTags s) (charAt s.currentNumber i) t).usageCount ∧
    (recordTest a r (buildUsedTags s)).mappings (charAt s.currentNumber i)
      = some { m with
               tags := m.tags.map (finalTag (buildUsedTags s) (charAt s.currentNumber i)) } := by
  have hmem : (i, tid) ∈ s.selectedTags := lookupRecord_mem _ _ _ hsel
  have hentry : (⟨charAt s.currentNumber i, tid,
      decide (s.inputs.getD i "" = charAt s.currentNumber i)⟩ : UsedTag)
        ∈ buildUsedTags s :=
    List.mem_map_of_mem _ hmem
  rw [decide_eq_false hinc] at hentry
  refine ⟨hentry, ?_, ?_⟩
  · have hcount :
        0 < (buildUsedTags s).countP (entryMatches (charAt s.currentNumber i) t) := by
      rw [List.countP_pos_iff]
      refine ⟨_, hentry, ?_⟩
      simp [entryMatches, hid]
    simp only [finalTag]
    omega
  · rw [recordTest_lookup, hm]
    rfl

/-- C2 witness: the amended statement read off the concrete run `cexFinal`,
on the edit-path tag `"2-99"`. -/
theorem c2_witness :
    (⟨charAt cexFinal.2.currentNumber 2, "2-99", false⟩ : UsedTag)
        ∈ buildUsedTags cexFinal.2 ∧
    ({ id := "2-99", label := "fish", usageCount := 0, successCount := 0 } : Tag).usageCount + 1
      ≤ (finalTag (buildUsedTags cexFinal.2) (charAt cexFinal.2.currentNumber 2)
          { id := "2-99", label := "fish", usageCount := 0, successCount := 0 }).usageCount ∧
    (recordTest cexFinal.1 c5res (buildUsedTags cexFinal.2)).mappings
        (charAt cexFinal.2.currentNumber 2)
      = some { id := "2", number := "2",
               tags := ([digitTag "2",
                         { id := "2-99", label := "fish",
                           usageCount := 0, successCount := 0 }] : List Tag).map
                 (finalTag (buildUsedTags cexFinal.2) (charAt cexFinal.2.currentNumber 2)) } :=
  c2_incorrect_slot_counted cexFinal.1 cexFinal.2 2 "2-99" c5res
    { id := "2", number := "2",
      tags := [digitTag "2",
               { id := "2-99", label := "fish", usageCount := 0, successCount := 0 }] }
    { id := "2-99", label := "fish", usageCount := 0, successCount := 0 }
    (by decide) (by decide) (by decide) (by decide) rfl

/-! ## Claim C8 -/

/-- C8 counterexample: a reachable eleven-slot review state with tags selected
for slots 2 and 10 displays `"tag7 tag3"` — the label of slot 10 *before* the
label of slot 2 — because `Object.keys(...).sort()` compares the stringified
indices lexicographically (`"10" < "2"`), while ascending slot order would
display `"tag3 tag7"`. -/
theorem c8_counterexample :
    Reach cexBase (cexBase, c8S17) ∧
    c8S17.phase = Phase.review ∧
    chosenString cexBase c8S17 = "tag7 tag3" ∧
    specChosenString cexBase c8S17 = "tag3 tag7" ∧
    ("tag7 tag3" : String) ≠ "tag3 tag7" :=
  ⟨c8_reach, rfl, by decide, by decide, by decide⟩

/-- C8 (amended): the chosen-mnemonic display joins the selected labels in
lexicographic order of the *stringified* slot indices; this coincides with
ascending slot-index order exactly on sessions whose selected indices are all
single digits (in particular all sessions of at most ten slots), and differs
from it on eleven- and twelve-slot Expert sessions (see the counterexample). -/
theorem c8_lex_order (a0 a : AppState) (s : Session) (h : Reach a0 (a, s))
    (hsmall : ∀ p ∈ s.selectedTags, p.1 < 10) :
    chosenString a s = specChosenString a s := by
  have hinv : SessionInv s := reach_inv h
  obtain ⟨-, hsorted, -⟩ := hinv
  have hkeys : (s.selectedTags.map Prod.fst).Pairwise (· < ·) :=
    List.pairwise_map.2 hsorted
  have hbound : ∀ k ∈ s.selectedTags.map Prod.fst, k < 10 := by
    intro k hk
    rcases List.mem_map.1 hk with ⟨p, hp, rfl⟩
    exact hsmall p hp
  have hkeysR : (s.selectedTags.map Prod.fst).Pairwise
      fun a b => jsStrLt (natToString a).data (natToString b).data = true := by
    refine hkeys.imp_of_mem ?_
    intro a b ha hb hlt
    exact natToString_lt_of_lt_ten a (hbound a ha) b (hbound b hb) hlt
  unfold chosenString specChosenString
  rw [sortByRepr_sorted_id _ hkeysR, sortNat_sorted_id _ hkeys]

/-- C8 witness: on the three-slot run `cexFinal` (slot indices 0–2), the
display order agrees with ascending slot order. -/
theorem c8_witness :
    chosenString cexFinal.1 cexFinal.2 = specChosenString cexFinal.1 cexFinal.2 :=
  c8_lex_order cexBase cexFinal.1 cexFinal.2 cex_reach (by decide)

end Renumber
